import Mathlib

/-!
LC-3 virtual machine skeleton (`main.go`): shallow embedding

The Go program keeps two process-wide arrays, `MEM` (type `Layout`) and `REG`
(ten cells of type `Reg`, a Go `int`), and runs a `for running > 0` loop whose
body is a `switch` on the top bits of a command word.  The embedding threads
these three pieces of state through explicit functions.

Machine integers:
* `Reg`, `OpCode`, `Flag` are Go `int`; they are modelled by `Int`, and the two
  places where the program does `int` arithmetic (`REG[r1] + REG[r2]`,
  `REG[Reg__PC] += 1`) wrap at 64 bits (`wrapInt`).
* `uint16` values are modelled by `Nat`, reduced `% 65536` where the program
  converts or adds.
* an array access whose index is out of range, and a shift by a negative count,
  are run-time panics in Go: the embedding returns `none` there.
-/

namespace VM

/-! ## Constants -/

/-- Source: `const START = 0x3000`. -/
def START : Int := 0x3000

/-- Number of cells of `type Layout [1 << 15]uint16`. -/
def LayoutSize : Nat := 1 <<< 15

/-- Source: `type Layout [1 << 15]uint16`. -/
abbrev Layout := Fin LayoutSize → Nat

/-! `type Reg int`: register indices and register contents are Go `int`s. -/

def Reg__R0 : Int := 0
def Reg__R1 : Int := 1
def Reg__R2 : Int := 2
def Reg__R3 : Int := 3
def Reg__R4 : Int := 4
def Reg__R5 : Int := 5
def Reg__R6 : Int := 6
def Reg__R7 : Int := 7
/-- Program counter. -/
def Reg__PC : Int := 8
/-- Condition flags. -/
def Reg__Cond : Int := 9
def Reg__Count : Int := 10

/-! `type OpCode int`, numbered by `iota`. -/

def OpCode__BR : Int := 0
def OpCode__ADD : Int := 1
def OpCode__LD : Int := 2
def OpCode__ST : Int := 3
def OpCode__JSR : Int := 4
def OpCode__AND : Int := 5
def OpCode__LDR : Int := 6
def OpCode__STR : Int := 7
def OpCode__RTI : Int := 8
def OpCode__NOT : Int := 9
def OpCode__LDI : Int := 10
def OpCode__STI : Int := 11
def OpCode__JMP : Int := 12
def OpCode__RES : Int := 13
def OpCode__LEA : Int := 14
def OpCode__TRAP : Int := 15

/-! `type Flag int`. -/

/-- Source: `1 << iota` with `iota = 0`. -/
def Flag__POS : Int := 1
/-- Source: `1 << iota` with `iota = 1`. -/
def Flag__ZRO : Int := 2
/-- Source: `1 << iota` with `iota = 2`. -/
def Flag__NEG : Int := 4

/-! ## Machine integers -/

/-- Go `int` arithmetic on a 64-bit target: the mathematical result reduced to
the twos-complement range `-2^63 .. 2^63 - 1`. -/
def wrapInt (x : Int) : Int := (x + 2 ^ 63) % 2 ^ 64 - 2 ^ 63

/-- Go conversion `uint16(x)` of an `int`: the low 16 bits. -/
def toUint16 (x : Int) : Nat := (x % 65536).toNat

/-! ## State -/

/-- The register array `var REG [Reg__Count]Reg`. -/
abbrev RegFile := Fin 10 → Int

/-- The globals `MEM`, `REG` and the loop variable `running` of `main`. -/
structure State where
  MEM : Layout
  REG : RegFile
  running : Int

/-- Index expression `REG[i]` read: `none` is the out-of-range panic. -/
def regGet (REG : RegFile) (i : Int) : Option Int :=
  if h : 0 ≤ i ∧ i < 10 then some (REG ⟨i.toNat, by omega⟩) else none

/-- The state after a successful `REG[i] = v`: cell `i` holds `v`, every other
cell, `MEM` and `running` are as before. -/
def put (s : State) (i : Int) (v : Int) : State :=
  { s with REG := fun j => if j.val = i.toNat then v else s.REG j }

/-- Assignment `REG[i] = v`: `none` is the out-of-range panic. -/
def regSet (s : State) (i : Int) (v : Int) : Option State :=
  if 0 ≤ i ∧ i < 10 then some (put s i v) else none

/-! ## Functions of the program -/

/-- Source: `func SignExtend(num uint16, bitc int) uint16`.
`num >> (bitc - 1)` panics for a negative count; `0xFFFF << bitc` is a `uint16`
shift, so bits moved past bit 15 are dropped. -/
def SignExtend (num : Nat) (bitc : Int) : Option Nat :=
  if bitc - 1 < 0 then none
  else if (num >>> (bitc - 1).toNat) &&& 1 ≠ 0 then
    some (num ||| (0xFFFF <<< bitc.toNat) % 65536)
  else some num

/-- Source: `func SetFlag(reg Reg)`. -/
def SetFlag (s : State) (reg : Int) : Option State := do
  let v ← regGet s.REG reg
  if v = 0 then
    regSet s Reg__Cond Flag__ZRO
  else if Int.shiftRight v 15 = 1 then
    regSet s Reg__Cond Flag__NEG
  else
    regSet s Reg__Cond Flag__POS

/-- Source: `func MemRead(num uint16) uint16`, marked `// TODO`: it returns the
constant 2 whatever the address. -/
def MemRead (_num : Nat) : Nat := 2

/-- One execution of the body of `for running > 0 { ... }` in `main`. -/
def loopBody (s : State) : Option State := do
  let cmd ← regGet s.REG Reg__PC
  let op := Int.shiftRight cmd 12
  let s1 ←
    if op = OpCode__ADD then do
      let r0 := Int.land (Int.shiftRight cmd 9) 0x7
      let r1 := Int.land (Int.shiftRight cmd 6) 0x7
      let immFlag := Int.land (Int.shiftRight cmd 5) 0x1
      let s2 ←
        if immFlag = 1 then do
          let imm5 ← SignExtend (toUint16 (Int.land cmd 0x1F)) 5
          let a ← regGet s.REG r1
          regSet s r0 (((toUint16 a + imm5) % 65536 : Nat) : Int)
        else do
          let r2 := Int.land cmd 0x7
          let a ← regGet s.REG r1
          let b ← regGet s.REG r2
          regSet s r0 (wrapInt (a + b))
      SetFlag s2 r0
    else if op = OpCode__AND then do
      let r0 := Int.land (Int.shiftRight cmd 9) 0x7
      let r1 := Int.land (Int.shiftRight cmd 6) 0x7
      let immFlag := Int.land (Int.shiftRight cmd 5) 0x1
      if immFlag = 1 then do
        let imm5 ← SignExtend (toUint16 (Int.land cmd 0x1FF)) 5
        let a ← regGet s.REG r1
        regSet s r0 ((toUint16 a &&& imm5 : Nat) : Int)
      else do
        let r2 := Int.land cmd 0x7
        let a ← regGet s.REG r1
        let b ← regGet s.REG r2
        regSet s r0 (wrapInt (a + b))
    else if op = OpCode__NOT then some s
    else if op = OpCode__BR then some s
    else if op = OpCode__JMP then some s
    else if op = OpCode__JSR then some s
    else if op = OpCode__LD then some s
    else if op = OpCode__LDI then do
      let r0 := Int.land (Int.shiftRight cmd 9) 0x7
      let offset ← SignExtend (toUint16 (Int.land cmd 0x1FF)) 9
      let pc ← regGet s.REG Reg__PC
      let s2 ← regSet s r0 ((MemRead (MemRead ((toUint16 pc + offset) % 65536)) : Nat) : Int)
      SetFlag s2 r0
    else if op = OpCode__LDR then some s
    else if op = OpCode__LEA then some s
    else if op = OpCode__ST then some s
    else if op = OpCode__STI then some s
    else if op = OpCode__STR then some s
    else if op = OpCode__TRAP then some s
    else if op = OpCode__RES ∨ op = OpCode__RTI then some s
    else some s
  let pc ← regGet s1.REG Reg__PC
  regSet s1 Reg__PC (wrapInt (pc + 1))

/-- The loop `for running > 0 { ... }` unrolled for at most `n` iterations: an
iteration runs only while the condition holds. -/
def runLoop : Nat → State → Option State
  | 0, s => some s
  | n + 1, s => if s.running > 0 then (loopBody s).bind (runLoop n) else some s

/-- The state in which `main` reaches the loop: zero-valued globals, then
`REG[Reg__Cond] = Reg(Flag__ZRO)`, `REG[Reg__PC] = Reg(START)`, `running := 1`. -/
def initState : State :=
  { MEM := fun _ => 0
    REG := fun j => if j.val = 9 then Flag__ZRO else if j.val = 8 then START else 0
    running := 1 }

/-- Accessor used in statements: the content of register `i`, 0 when `i` is not
an index of `REG`. -/
def reg (s : State) (i : Int) : Int := (regGet s.REG i).getD 0

/-- A state with given `R0..R7` (as a list), `PC`, `COND`, zero memory, loop
running: used to write concrete machine states. -/
def mkState (rs : List Int) (pc cond : Int) : State :=
  { MEM := fun _ => 0
    REG := fun j => if j.val = 9 then cond else if j.val = 8 then pc else rs.getD j.val 0
    running := 1 }

/-- The state `s` with the memory array replaced by `m`: used to write concrete
machine states. -/
def withMEM (s : State) (m : Layout) : State := { s with MEM := m }

/-- The value the three branches of `SetFlag` store in `REG[Reg__Cond]` when the
register it inspects holds `v`; names the result in the lemmas below. -/
def flagFor (v : Int) : Int :=
  if v = 0 then Flag__ZRO else if Int.shiftRight v 15 = 1 then Flag__NEG else Flag__POS

/-! ## The function `main` around the loop -/

/-- The globals before `main` runs: Go zero-initialises `MEM` and `REG`. -/
def zeroState : State :=
  { MEM := fun _ => 0
    REG := fun _ => 0
    running := 0 }

/-- Lines 109-112 of `main`: `REG[Reg__Cond] = Reg(Flag__ZRO)`,
`REG[Reg__PC] = Reg(START)`, `running := 1`, on the zero-valued globals. -/
def enterLoop : Option State := do
  let s1 ← regSet zeroState Reg__Cond Flag__ZRO
  let s2 ← regSet s1 Reg__PC START
  some { s2 with running := 1 }

/-- How `main` goes on after its argument handling: the process has ended through
`os.Exit(code)` with the text printed so far, or an array access has panicked,
or control has reached `for running > 0` in state `s`. -/
inductive MainOutcome where
  | exited (code : Int) (stdout : List String)
  | panicked
  | loopEntered (s : State)

/-- The loop `for i := 1; i < len(args); i++ { fmt.Printf(...); os.Exit(1) }`
started at index `i`: when the condition holds the body prints and ends the
process, so `i++` is never executed; `none` means the loop is left normally. -/
def imageLoop (args : List String) (i : Nat) : Option MainOutcome :=
  if h : i < args.length then
    some (MainOutcome.exited 1 ["Failed to load image: " ++ args[i] ++ "\n"])
  else none

/-- Source: `func main()` up to the entry of the VM loop, as a function of
`os.Args`. -/
def main (args : List String) : MainOutcome :=
  if args.length < 2 then MainOutcome.exited 2 ["vm [image]...\n"]
  else
    match imageLoop args 1 with
    | some out => out
    | none =>
      match enterLoop with
      | some s => MainOutcome.loopEntered s
      | none => MainOutcome.panicked

/-- The exit code of the process, if `main` ends it before the VM loop. -/
def exitCode : MainOutcome → Option Int
  | MainOutcome.exited code _ => some code
  | MainOutcome.panicked => none
  | MainOutcome.loopEntered _ => none

/-- Spec side of sign extension: the value of the low `w` bits `x` read as a
`w`-bit twos-complement number. -/
def signedVal (w : Nat) (x : Nat) : Int :=
  if x < 2 ^ (w - 1) then (x : Int) else (x : Int) - 2 ^ w

/-! ## Bit-level helper lemmas -/

theorem and_one_ne_zero_iff (v k : Nat) : ((v >>> k) &&& 1 ≠ 0) ↔ v.testBit k = true := by
  rw [Nat.testBit_to_div_mod, Nat.and_one_is_mod, Nat.shiftRight_eq_div_pow]
  have := Nat.mod_two_eq_zero_or_one (v / 2 ^ k)
  simp only [decide_eq_true_eq]
  omega

theorem testBit_mask (m w : Nat) (hm : m < 65536)
    (h : ∀ i, i < 16 → m.testBit i = decide (w ≤ i)) (i : Nat) :
    m.testBit i = (decide (w ≤ i) && decide (i < 16)) := by
  by_cases hi : i < 16
  · simp [h i hi, hi]
  · have : m < 2 ^ i := lt_of_lt_of_le hm (by
      calc 65536 = 2 ^ 16 := by norm_num
        _ ≤ 2 ^ i := Nat.pow_le_pow_right (by norm_num) (by omega))
    simp [Nat.testBit_lt_two_pow this, hi]

/-- The word `SignExtend` returns on the negative branch, for a width in 0..16 and
a 16-bit input: below 2^16, and bit `i` is set iff it is set in `num` or
`bitc ≤ i < 16`. -/
theorem signExtend_or (v w : Nat) (hv : v < 65536)
    (hm : ∀ i, i < 16 → ((0xFFFF <<< w) % 65536).testBit i = decide (w ≤ i)) :
    v ||| (0xFFFF <<< w) % 65536 < 65536 ∧
    ∀ i, (v ||| (0xFFFF <<< w) % 65536).testBit i
      = (v.testBit i || (decide (w ≤ i) && decide (i < 16))) := by
  have hlt : (0xFFFF <<< w) % 65536 < 65536 := Nat.mod_lt _ (by norm_num)
  refine ⟨?_, fun i => ?_⟩
  · exact Nat.or_lt_two_pow (n := 16) hv hlt
  · rw [Nat.testBit_or, testBit_mask _ w hlt hm i]

theorem ldiff_mask (n m : Nat) : Nat.ldiff (2 ^ m - 1) n = 2 ^ m - (n % 2 ^ m + 1) := by
  apply Nat.eq_of_testBit_eq
  intro i
  have hlt : n % 2 ^ m < 2 ^ m := Nat.mod_lt _ (Nat.two_pow_pos m)
  rw [Nat.testBit_ldiff, Nat.testBit_two_pow_sub_one, Nat.testBit_two_pow_sub_succ hlt,
    Nat.testBit_mod_two_pow]
  by_cases h : i < m <;> simp [h]

theorem land_mask (x : Int) (m : Nat) : Int.land x ((2 ^ m - 1 : Nat) : Int) = x % 2 ^ m := by
  cases x with
  | ofNat n =>
    show ((n &&& (2 ^ m - 1) : Nat) : Int) = (n : Int) % 2 ^ m
    rw [Nat.and_pow_two_sub_one_eq_mod]
    push_cast
    rfl
  | negSucc n =>
    show ((Nat.ldiff (2 ^ m - 1) n : Nat) : Int) = Int.negSucc n % 2 ^ m
    rw [ldiff_mask]
    have hlt : n % 2 ^ m < 2 ^ m := Nat.mod_lt _ (Nat.two_pow_pos m)
    have hp : (0 : Int) < 2 ^ m := by positivity
    rw [Int.negSucc_eq]
    have e : ((2 ^ m - (n % 2 ^ m + 1) : Nat) : Int) = 2 ^ m - ((n : Int) % 2 ^ m + 1) := by
      rw [Nat.cast_sub (by omega)]
      push_cast
      rfl
    rw [e]
    have hr0 := Int.emod_nonneg (n : Int) (ne_of_gt hp)
    have hr1 := Int.emod_lt_of_pos (n : Int) hp
    have hd := Int.emod_add_ediv (n : Int) (2 ^ m)
    generalize (n : Int) % 2 ^ m = r at hr0 hr1 hd ⊢
    have e2 : -((n : Int) + 1) = (2 ^ m - (r + 1)) + 2 ^ m * (-((n : Int) / 2 ^ m) - 1) := by
      linarith
    rw [e2, Int.add_mul_emod_self_left]
    exact (Int.emod_eq_of_lt (by linarith) (by linarith)).symm

theorem land_7 (x : Int) : Int.land x 0x7 = x % 8 := by
  have h := land_mask x 3
  norm_num at h
  exact h
theorem land_1 (x : Int) : Int.land x 0x1 = x % 2 := by
  have h := land_mask x 1
  norm_num at h
  exact h
theorem land_1F (x : Int) : Int.land x 0x1F = x % 32 := by
  have h := land_mask x 5
  norm_num at h
  exact h
theorem land_1FF (x : Int) : Int.land x 0x1FF = x % 512 := by
  have h := land_mask x 9
  norm_num at h
  exact h
theorem shr_eq (x : Int) (k : Nat) : Int.shiftRight x k = x / 2 ^ k := by
  have h := Int.shiftRight_eq_div_pow x k
  rw [Nat.cast_pow] at h
  exact h

/-! ## Register-file helper lemmas -/

theorem regGet_reg (s : State) (i : Int) (h0 : 0 ≤ i) (h1 : i < 10) :
    regGet s.REG i = some (reg s i) := by
  simp [reg, regGet, h0, h1]

theorem regSet_put (s : State) (i v : Int) (h0 : 0 ≤ i) (h1 : i < 10) :
    regSet s i v = some (put s i v) := by
  simp [regSet, h0, h1]

theorem reg_put (s : State) (i v j : Int) (hj0 : 0 ≤ j) (hj1 : j < 10) :
    reg (put s i v) j = if j.toNat = i.toNat then v else reg s j := by
  simp [reg, regGet, put, hj0, hj1]

theorem reg_put_same (s : State) (i v : Int) (h0 : 0 ≤ i) (h1 : i < 10) :
    reg (put s i v) i = v := by
  rw [reg_put s i v i h0 h1, if_pos rfl]

theorem reg_put_other (s : State) (i v j : Int) (hi0 : 0 ≤ i) (hj0 : 0 ≤ j) (hj1 : j < 10)
    (hne : j ≠ i) : reg (put s i v) j = reg s j := by
  rw [reg_put s i v j hj0 hj1, if_neg (by omega)]

/-- The flag `SetFlag` stores for a register content `v`. -/
theorem SetFlag_put (s : State) (r : Int) (h0 : 0 ≤ r) (h1 : r < 10) :
    SetFlag s r = some (put s Reg__Cond (flagFor (reg s r))) := by
  unfold SetFlag flagFor
  rw [regGet_reg s r h0 h1]
  simp only [Option.bind_eq_bind, Option.some_bind]
  split_ifs <;> exact regSet_put _ _ _ (by decide) (by decide)

theorem shr12 (x : Int) : Int.shiftRight x 12 = x / 4096 := by
  rw [shr_eq]; norm_num

theorem shr9 (x : Int) : Int.shiftRight x 9 = x / 512 := by
  rw [shr_eq]; norm_num

theorem shr6 (x : Int) : Int.shiftRight x 6 = x / 64 := by
  rw [shr_eq]; norm_num

theorem shr5 (x : Int) : Int.shiftRight x 5 = x / 32 := by
  rw [shr_eq]; norm_num

theorem SignExtend_some (v : Nat) (w : Int) (hw : 1 ≤ w) : ∃ r, SignExtend v w = some r := by
  unfold SignExtend
  rw [if_neg (by omega)]
  split_ifs
  · exact ⟨_, rfl⟩
  · exact ⟨_, rfl⟩

theorem toUint16_mod (x : Int) (m : Int) (h0 : 0 < m) (h1 : m ≤ 65536) :
    toUint16 (x % m) = (x % m).toNat := by
  unfold toUint16
  have := Int.emod_nonneg x (ne_of_gt h0)
  have := Int.emod_lt_of_pos x h0
  rw [Int.emod_eq_of_lt (by omega) (by omega)]

/-! ## One loop iteration, case by case

Each lemma gives the state after `loopBody` as a chain of `put`s.  The command
word is `reg s Reg__PC`: the program decodes the content of the PC register. -/

/-- ADD, immediate mode. -/
theorem loopBody_ADD_imm (s : State) (imm5 : Nat)
    (hop : reg s Reg__PC / 4096 = 1) (himm : reg s Reg__PC / 32 % 2 = 1)
    (hs : SignExtend (reg s Reg__PC % 32).toNat 5 = some imm5) :
    loopBody s = some (put (put (put s (reg s Reg__PC / 512 % 8)
        (((toUint16 (reg s (reg s Reg__PC / 64 % 8)) + imm5) % 65536 : Nat) : Int))
        Reg__Cond (flagFor (((toUint16 (reg s (reg s Reg__PC / 64 % 8)) + imm5) % 65536 : Nat) : Int)))
        Reg__PC (wrapInt (reg s Reg__PC + 1))) := by
  unfold loopBody
  rw [regGet_reg s Reg__PC (by decide) (by decide)]
  simp only [Option.bind_eq_bind, Option.some_bind, shr12, shr9, shr6, shr5, land_7, land_1,
    land_1F, OpCode__ADD, hop, himm, if_true]
  rw [toUint16_mod _ _ (by norm_num) (by norm_num), hs]
  simp only [Option.bind_eq_bind, Option.some_bind]
  rw [regGet_reg s _ (by omega) (by omega)]
  simp only [Option.bind_eq_bind, Option.some_bind]
  rw [regSet_put _ _ _ (by omega) (by omega), Option.some_bind,
    SetFlag_put _ _ (by omega) (by omega)]
  simp only [Option.bind_eq_bind, Option.some_bind]
  rw [regGet_reg _ Reg__PC (by decide) (by decide), Option.some_bind,
    regSet_put _ _ _ (by decide) (by decide)]
  rw [reg_put_same _ _ _ (by omega) (by omega),
    reg_put_other _ _ _ _ (by decide) (by decide) (by decide) (by decide),
    reg_put_other _ _ _ _ (by omega) (by decide) (by decide) (by unfold Reg__PC; omega)]

/-- ADD, register mode. -/
theorem loopBody_ADD_reg (s : State)
    (hop : reg s Reg__PC / 4096 = 1) (himm : reg s Reg__PC / 32 % 2 ≠ 1) :
    loopBody s = some (put (put (put s (reg s Reg__PC / 512 % 8)
        (wrapInt (reg s (reg s Reg__PC / 64 % 8) + reg s (reg s Reg__PC % 8))))
        Reg__Cond (flagFor (wrapInt (reg s (reg s Reg__PC / 64 % 8) + reg s (reg s Reg__PC % 8)))))
        Reg__PC (wrapInt (reg s Reg__PC + 1))) := by
  unfold loopBody
  rw [regGet_reg s Reg__PC (by decide) (by decide)]
  simp only [Option.bind_eq_bind, Option.some_bind, shr12, shr9, shr6, shr5, land_7, land_1,
    OpCode__ADD, hop, himm, if_true, if_false]
  rw [regGet_reg s _ (by omega) (by omega)]
  simp only [Option.bind_eq_bind, Option.some_bind]
  rw [regGet_reg s _ (by omega) (by omega)]
  simp only [Option.bind_eq_bind, Option.some_bind]
  rw [regSet_put _ _ _ (by omega) (by omega), Option.some_bind,
    SetFlag_put _ _ (by omega) (by omega)]
  simp only [Option.bind_eq_bind, Option.some_bind]
  rw [regGet_reg _ Reg__PC (by decide) (by decide), Option.some_bind,
    regSet_put _ _ _ (by decide) (by decide)]
  rw [reg_put_same _ _ _ (by omega) (by omega),
    reg_put_other _ _ _ _ (by decide) (by decide) (by decide) (by decide),
    reg_put_other _ _ _ _ (by omega) (by decide) (by decide) (by unfold Reg__PC; omega)]

/-- AND, immediate mode: the operand is `SignExtend` of the low nine bits of the
command word, and `SetFlag` is not called. -/
theorem loopBody_AND_imm (s : State) (imm5 : Nat)
    (hop : reg s Reg__PC / 4096 = 5) (himm : reg s Reg__PC / 32 % 2 = 1)
    (hs : SignExtend (reg s Reg__PC % 512).toNat 5 = some imm5) :
    loopBody s = some (put (put s (reg s Reg__PC / 512 % 8)
        ((toUint16 (reg s (reg s Reg__PC / 64 % 8)) &&& imm5 : Nat) : Int))
        Reg__PC (wrapInt (reg s Reg__PC + 1))) := by
  unfold loopBody
  rw [regGet_reg s Reg__PC (by decide) (by decide)]
  simp only [Option.bind_eq_bind, Option.some_bind, shr12, shr9, shr6, shr5, land_7, land_1,
    land_1FF, OpCode__ADD, OpCode__AND, hop, himm, if_true]
  norm_num only [if_false]
  rw [toUint16_mod _ _ (by norm_num) (by norm_num), hs]
  simp only [Option.bind_eq_bind, Option.some_bind]
  rw [regGet_reg s _ (by omega) (by omega)]
  simp only [Option.bind_eq_bind, Option.some_bind]
  rw [regSet_put _ _ _ (by omega) (by omega), Option.some_bind]
  rw [regGet_reg _ Reg__PC (by decide) (by decide), Option.some_bind,
    regSet_put _ _ _ (by decide) (by decide)]
  rw [reg_put_other _ _ _ _ (by omega) (by decide) (by decide) (by unfold Reg__PC; omega)]

/-- AND, register mode: the program adds the two registers, and `SetFlag` is not
called. -/
theorem loopBody_AND_reg (s : State)
    (hop : reg s Reg__PC / 4096 = 5) (himm : reg s Reg__PC / 32 % 2 ≠ 1) :
    loopBody s = some (put (put s (reg s Reg__PC / 512 % 8)
        (wrapInt (reg s (reg s Reg__PC / 64 % 8) + reg s (reg s Reg__PC % 8))))
        Reg__PC (wrapInt (reg s Reg__PC + 1))) := by
  unfold loopBody
  rw [regGet_reg s Reg__PC (by decide) (by decide)]
  simp only [Option.bind_eq_bind, Option.some_bind, shr12, shr9, shr6, shr5, land_7, land_1,
    OpCode__ADD, OpCode__AND, hop, himm, if_true, if_false]
  norm_num only [if_false]
  rw [regGet_reg s _ (by omega) (by omega)]
  simp only [Option.bind_eq_bind, Option.some_bind]
  rw [regGet_reg s _ (by omega) (by omega)]
  simp only [Option.bind_eq_bind, Option.some_bind]
  rw [regSet_put _ _ _ (by omega) (by omega), Option.some_bind]
  rw [regGet_reg _ Reg__PC (by decide) (by decide), Option.some_bind,
    regSet_put _ _ _ (by decide) (by decide)]
  rw [reg_put_other _ _ _ _ (by omega) (by decide) (by decide) (by unfold Reg__PC; omega)]

/-- LDI: both reads go through `MemRead`. -/
theorem loopBody_LDI (s : State) (offset : Nat)
    (hop : reg s Reg__PC / 4096 = 10)
    (hs : SignExtend (reg s Reg__PC % 512).toNat 9 = some offset) :
    loopBody s = some (put (put (put s (reg s Reg__PC / 512 % 8)
        ((MemRead (MemRead ((toUint16 (reg s Reg__PC) + offset) % 65536)) : Nat) : Int))
        Reg__Cond (flagFor ((MemRead (MemRead ((toUint16 (reg s Reg__PC) + offset) % 65536)) : Nat) : Int)))
        Reg__PC (wrapInt (reg s Reg__PC + 1))) := by
  unfold loopBody
  rw [regGet_reg s Reg__PC (by decide) (by decide)]
  simp only [Option.bind_eq_bind, Option.some_bind, shr12, shr9, land_7,
    land_1FF, OpCode__ADD, OpCode__AND, OpCode__NOT, OpCode__BR, OpCode__JMP, OpCode__JSR,
    OpCode__LD, OpCode__LDI, hop]
  norm_num only [if_false, if_true]
  rw [toUint16_mod _ _ (by norm_num) (by norm_num), hs]
  simp only [Option.bind_eq_bind, Option.some_bind]
  rw [regSet_put _ _ _ (by omega) (by omega), Option.some_bind,
    SetFlag_put _ _ (by omega) (by omega)]
  simp only [Option.bind_eq_bind, Option.some_bind]
  rw [regGet_reg _ Reg__PC (by decide) (by decide), Option.some_bind,
    regSet_put _ _ _ (by decide) (by decide)]
  rw [reg_put_same _ _ _ (by omega) (by omega),
    reg_put_other _ _ _ _ (by decide) (by decide) (by decide) (by decide),
    reg_put_other _ _ _ _ (by omega) (by decide) (by decide) (by unfold Reg__PC; omega)]

/-- Every other command word (the thirteen empty `case`s and `default`): only the
final `REG[Reg__PC] += 1` takes effect. -/
theorem loopBody_other (s : State)
    (h1 : reg s Reg__PC / 4096 ≠ 1) (h5 : reg s Reg__PC / 4096 ≠ 5)
    (h10 : reg s Reg__PC / 4096 ≠ 10) :
    loopBody s = some (put s Reg__PC (wrapInt (reg s Reg__PC + 1))) := by
  unfold loopBody
  rw [regGet_reg s Reg__PC (by decide) (by decide)]
  simp only [Option.bind_eq_bind, Option.some_bind, shr12, OpCode__ADD, OpCode__AND,
    OpCode__LDI, h1, h5, h10, if_false, ite_self]
  rw [regGet_reg _ Reg__PC (by decide) (by decide), Option.some_bind,
    regSet_put _ _ _ (by decide) (by decide)]

/-! ## The flag invariant -/

theorem flagFor_cases (v : Int) :
    flagFor v = Flag__NEG ∨ flagFor v = Flag__ZRO ∨ flagFor v = Flag__POS := by
  unfold flagFor
  split_ifs
  · exact Or.inr (Or.inl rfl)
  · exact Or.inl rfl
  · exact Or.inr (Or.inr rfl)

/-- One iteration never panics, keeps `running`, and leaves in COND either its old
value or a value written by `SetFlag`. -/
theorem loopBody_cond (s : State) :
    ∃ s', loopBody s = some s' ∧ s'.running = s.running ∧
      (reg s' Reg__Cond = reg s Reg__Cond ∨ ∃ v, reg s' Reg__Cond = flagFor v) := by
  by_cases h1 : reg s Reg__PC / 4096 = 1
  · by_cases himm : reg s Reg__PC / 32 % 2 = 1
    · obtain ⟨imm5, hs⟩ := SignExtend_some (reg s Reg__PC % 32).toNat 5 (by decide)
      refine ⟨_, loopBody_ADD_imm s imm5 h1 himm hs, rfl, Or.inr ?_⟩
      rw [reg_put_other _ _ _ _ (by decide) (by decide) (by decide) (by decide),
        reg_put_same _ _ _ (by decide) (by decide)]
      exact ⟨_, rfl⟩
    · refine ⟨_, loopBody_ADD_reg s h1 himm, rfl, Or.inr ?_⟩
      rw [reg_put_other _ _ _ _ (by decide) (by decide) (by decide) (by decide),
        reg_put_same _ _ _ (by decide) (by decide)]
      exact ⟨_, rfl⟩
  · by_cases h5 : reg s Reg__PC / 4096 = 5
    · by_cases himm : reg s Reg__PC / 32 % 2 = 1
      · obtain ⟨imm5, hs⟩ := SignExtend_some (reg s Reg__PC % 512).toNat 5 (by decide)
        refine ⟨_, loopBody_AND_imm s imm5 h5 himm hs, rfl, Or.inl ?_⟩
        rw [reg_put_other _ _ _ _ (by decide) (by decide) (by decide) (by decide),
          reg_put_other _ _ _ _ (by omega) (by decide) (by decide)
            (by unfold Reg__Cond; omega)]
      · refine ⟨_, loopBody_AND_reg s h5 himm, rfl, Or.inl ?_⟩
        rw [reg_put_other _ _ _ _ (by decide) (by decide) (by decide) (by decide),
          reg_put_other _ _ _ _ (by omega) (by decide) (by decide)
            (by unfold Reg__Cond; omega)]
    · by_cases h10 : reg s Reg__PC / 4096 = 10
      · obtain ⟨offset, hs⟩ := SignExtend_some (reg s Reg__PC % 512).toNat 9 (by decide)
        refine ⟨_, loopBody_LDI s offset h10 hs, rfl, Or.inr ?_⟩
        rw [reg_put_other _ _ _ _ (by decide) (by decide) (by decide) (by decide),
          reg_put_same _ _ _ (by decide) (by decide)]
        exact ⟨_, rfl⟩
      · refine ⟨_, loopBody_other s h1 h5 h10, rfl, Or.inl ?_⟩
        rw [reg_put_other _ _ _ _ (by decide) (by decide) (by decide) (by decide)]

/-- The loop keeps "COND is one of the three flags" and never stops or panics. -/
theorem runLoop_cond (n : Nat) (s : State)
    (h : reg s Reg__Cond = Flag__NEG ∨ reg s Reg__Cond = Flag__ZRO ∨ reg s Reg__Cond = Flag__POS) :
    ∃ s', runLoop n s = some s' ∧
      (reg s' Reg__Cond = Flag__NEG ∨ reg s' Reg__Cond = Flag__ZRO ∨
        reg s' Reg__Cond = Flag__POS) := by
  induction n generalizing s with
  | zero => exact ⟨s, rfl, h⟩
  | succ n ih =>
    unfold runLoop
    by_cases hr : s.running > 0
    · rw [if_pos hr]
      obtain ⟨s1, hb, _, hc⟩ := loopBody_cond s
      rw [hb, Option.some_bind]
      apply ih
      rcases hc with hc | ⟨v, hc⟩
      · rw [hc]; exact h
      · rw [hc]; exact flagFor_cases v
    · rw [if_neg hr]
      exact ⟨s, rfl, h⟩

/-! ## Theorems -/

/-- C1: for every width w in {5,6,9,11} and every 16-bit value v, `SignExtend v w`
returns v when bit w-1 of v is 0, and when that bit is 1 it returns the 16-bit
word whose bit i is set exactly when bit i of v is set or w ≤ i ≤ 15; moreover
`SignExtend 0b11111 5 = 0xFFFF` and `SignExtend 0b01111 5 = 0x000F`. -/
theorem SignExtend_spec (w v : Nat) (hw : w = 5 ∨ w = 6 ∨ w = 9 ∨ w = 11)
    (hv : v < 65536) :
    (v.testBit (w - 1) = false → SignExtend v w = some v) ∧
    (v.testBit (w - 1) = true →
      ∃ r, SignExtend v w = some r ∧ r < 65536 ∧
        ∀ i, r.testBit i = (v.testBit i || (decide (w ≤ i) && decide (i < 16)))) ∧
    SignExtend 0b11111 5 = some 0xFFFF ∧ SignExtend 0b01111 5 = some 0x000F := by
  have hw1 : ¬ ((w : Int) - 1 < 0) := by omega
  have hk : ((w : Int) - 1).toNat = w - 1 := by omega
  have hmask : ∀ i, i < 16 → ((0xFFFF <<< w) % 65536).testBit i = decide (w ≤ i) := by
    intro i hi
    rcases hw with rfl | rfl | rfl | rfl <;> interval_cases i <;> decide
  refine ⟨fun h0 => ?_, fun h1 => ?_, by decide, by decide⟩
  · have hc : ¬ ((v >>> (w - 1)) &&& 1 ≠ 0) := by
      rw [and_one_ne_zero_iff]; simp [h0]
    simp only [SignExtend, hw1, hk, Int.toNat_ofNat, if_false, hc]
  · have hc : (v >>> (w - 1)) &&& 1 ≠ 0 := (and_one_ne_zero_iff v (w - 1)).2 h1
    refine ⟨v ||| (0xFFFF <<< w) % 65536, ?_, signExtend_or v w hv hmask⟩
    simp only [SignExtend, hw1, hk, Int.toNat_ofNat, if_false]
    rw [if_pos hc]

/-- Witness for C1 at w = 5, v = 0b00111 (bit 4 clear). -/
theorem SignExtend_spec_witness :
    (5 = 5 ∨ 5 = 6 ∨ 5 = 9 ∨ 5 = 11) ∧ 0b00111 < 65536 ∧
      SignExtend 0b00111 5 = some 0b00111 :=
  ⟨Or.inl rfl, by decide, (SignExtend_spec 5 0b00111 (Or.inl rfl) (by decide)).1 (by decide)⟩

/-- Bit 15 of a 16-bit register content, as the program tests it (`x >> 15 == 1`). -/
theorem shr15_eq_one_iff (x : Int) (h0 : 0 ≤ x) (h1 : x ≤ 0xFFFF) :
    Int.shiftRight x 15 = 1 ↔ x.toNat.testBit 15 = true := by
  rw [shr_eq, Nat.testBit_to_div_mod]
  simp only [decide_eq_true_eq]
  obtain ⟨n, rfl⟩ := Int.eq_ofNat_of_zero_le h0
  simp only [Int.toNat_ofNat]
  norm_num
  omega

/-- C2: when register r (one of R0..R7) holds a 16-bit value x, `SetFlag r` returns
normally and sets COND to Z if x = 0, to N if bit 15 of x is 1, to P otherwise,
leaving R0..R7, PC, the memory and the loop variable unchanged. -/
theorem SetFlag_spec (s : State) (r : Int) (hr0 : 0 ≤ r) (hr7 : r ≤ 7)
    (hx0 : 0 ≤ reg s r) (hx1 : reg s r ≤ 0xFFFF) :
    ∃ s', SetFlag s r = some s' ∧
      reg s' Reg__Cond =
        (if reg s r = 0 then Flag__ZRO
         else if (reg s r).toNat.testBit 15 = true then Flag__NEG else Flag__POS) ∧
      (∀ i, 0 ≤ i → i ≤ 8 → reg s' i = reg s i) ∧
      s'.MEM = s.MEM ∧ s'.running = s.running := by
  refine ⟨_, SetFlag_put s r hr0 (by omega), ?_, ?_, rfl, rfl⟩
  · rw [reg_put_same _ _ _ (by decide) (by decide)]
    simp only [flagFor, shr15_eq_one_iff (reg s r) hx0 hx1]
  · intro i hi0 hi8
    exact reg_put_other _ _ _ _ (by decide) hi0 (by omega) (by unfold Reg__Cond; omega)

/-- Witness for C2: a register holding 0 gives Z, 0x8000 gives N, 1 gives P. -/
theorem SetFlag_spec_witness :
    (∃ s', SetFlag (mkState [0] 0x3000 Flag__POS) 0 = some s' ∧ reg s' Reg__Cond = Flag__ZRO) ∧
    (∃ s', SetFlag (mkState [0x8000] 0x3000 Flag__ZRO) 0 = some s' ∧
      reg s' Reg__Cond = Flag__NEG) ∧
    (∃ s', SetFlag (mkState [0, 1] 0x3000 Flag__ZRO) 1 = some s' ∧
      reg s' Reg__Cond = Flag__POS) := by
  refine ⟨?_, ?_, ?_⟩
  · obtain ⟨s', h, hc, _⟩ := SetFlag_spec (mkState [0] 0x3000 Flag__POS) 0
      (by decide) (by decide) (by decide) (by decide)
    exact ⟨s', h, by rw [hc]; decide⟩
  · obtain ⟨s', h, hc, _⟩ := SetFlag_spec (mkState [0x8000] 0x3000 Flag__ZRO) 0
      (by decide) (by decide) (by decide) (by decide)
    exact ⟨s', h, by rw [hc]; decide⟩
  · obtain ⟨s', h, hc, _⟩ := SetFlag_spec (mkState [0, 1] 0x3000 Flag__ZRO) 1
      (by decide) (by decide) (by decide) (by decide)
    exact ⟨s', h, by rw [hc]; decide⟩

/-- Reading of `flagFor` on a 16-bit value: Z for 0, N when bit 15 is set, P otherwise. -/
theorem flagFor_uint16 (x : Int) (h0 : 0 ≤ x) (h1 : x ≤ 0xFFFF) :
    flagFor x =
      (if x = 0 then Flag__ZRO else if x.toNat.testBit 15 = true then Flag__NEG else Flag__POS) := by
  simp only [flagFor, shr15_eq_one_iff x h0 h1]

/-- C3: a loop iteration whose command word has opcode ADD (bits 15-12 = 0001) and
bit 5 set returns normally, leaves in DR (bits 11-9) the value
(SR1 + SignExtend(bits 4-0, 5)) mod 2^16, with SR1 the register of bits 8-6, and sets
COND to Z, N or P according to that value (zero, bit 15 set, otherwise); with the
word 0x1063 (ADD R0,R1,#3) and R1 = 5 it leaves R0 = 8 and COND = P. -/
theorem ADD_imm_spec (s : State) (cmd : Int) (hcmd : reg s Reg__PC = cmd)
    (hop : cmd / 4096 = 1) (himm : cmd / 32 % 2 = 1) :
    ∃ s' imm5, loopBody s = some s' ∧ SignExtend (cmd % 32).toNat 5 = some imm5 ∧
      reg s' (cmd / 512 % 8) = (reg s (cmd / 64 % 8) + imm5) % 65536 ∧
      reg s' Reg__Cond =
        (if reg s' (cmd / 512 % 8) = 0 then Flag__ZRO
         else if (reg s' (cmd / 512 % 8)).toNat.testBit 15 = true then Flag__NEG
         else Flag__POS) ∧
      (cmd = 0x1063 → reg s Reg__R1 = 5 → reg s' Reg__R0 = 8 ∧ reg s' Reg__Cond = Flag__POS) := by
  obtain ⟨imm5, hs⟩ := SignExtend_some (cmd % 32).toNat 5 (by decide)
  have hl := loopBody_ADD_imm s imm5 (by rw [hcmd]; exact hop) (by rw [hcmd]; exact himm)
    (by rw [hcmd]; exact hs)
  rw [hcmd] at hl
  have hv : (((toUint16 (reg s (cmd / 64 % 8)) + imm5) % 65536 : Nat) : Int)
      = (reg s (cmd / 64 % 8) + imm5) % 65536 := by
    unfold toUint16
    omega
  rw [hv] at hl
  have hd : reg (put (put (put s (cmd / 512 % 8) ((reg s (cmd / 64 % 8) + imm5) % 65536))
        Reg__Cond (flagFor ((reg s (cmd / 64 % 8) + imm5) % 65536)))
        Reg__PC (wrapInt (cmd + 1))) (cmd / 512 % 8)
      = (reg s (cmd / 64 % 8) + imm5) % 65536 := by
    rw [reg_put_other _ _ _ _ (by decide) (by omega) (by omega) (by unfold Reg__PC; omega),
      reg_put_other _ _ _ _ (by decide) (by omega) (by omega) (by unfold Reg__Cond; omega),
      reg_put_same _ _ _ (by omega) (by omega)]
  have hc : reg (put (put (put s (cmd / 512 % 8) ((reg s (cmd / 64 % 8) + imm5) % 65536))
        Reg__Cond (flagFor ((reg s (cmd / 64 % 8) + imm5) % 65536)))
        Reg__PC (wrapInt (cmd + 1))) Reg__Cond
      = flagFor ((reg s (cmd / 64 % 8) + imm5) % 65536) := by
    rw [reg_put_other _ _ _ _ (by decide) (by decide) (by decide) (by decide),
      reg_put_same _ _ _ (by decide) (by decide)]
  refine ⟨_, imm5, hl, hs, hd, ?_, ?_⟩
  · rw [hc, hd]
    exact flagFor_uint16 _ (by omega) (by omega)
  · intro h hr1
    subst h
    have h3 : imm5 = 3 := by
      have e : SignExtend ((4195 : Int) % 32).toNat 5 = some 3 := by decide
      rw [e] at hs
      exact (Option.some.inj hs).symm
    subst h3
    have e1 : (4195 : Int) / 64 % 8 = Reg__R1 := by decide
    have e0 : (4195 : Int) / 512 % 8 = Reg__R0 := by decide
    rw [e1, hr1] at hd hc
    rw [e0] at hd hc
    rw [e1, hr1, e0]
    exact ⟨by rw [hd]; decide, by rw [hc]; decide⟩

/-- Witness for C3: R1 = 5 and the word 0x1063 (ADD R0,R1,#3) give R0 = 8, COND = P. -/
theorem ADD_imm_spec_witness :
    ∃ s', loopBody (mkState [0, 5] 0x1063 Flag__ZRO) = some s' ∧
      reg s' Reg__R0 = 8 ∧ reg s' Reg__Cond = Flag__POS := by
  obtain ⟨s', _, h, _, _, _, hw⟩ := ADD_imm_spec (mkState [0, 5] 0x1063 Flag__ZRO) 0x1063
    (by decide) (by decide) (by decide)
  exact ⟨s', h, hw rfl (by decide)⟩

/-- C4 (code at the input of the claim): with R1 = 0b1100 and R2 = 0b1010 the word
0x5042 (AND R0,R1,R2) leaves R0 = 22, the sum of the two registers, where the
bitwise AND is 0b1000, and leaves COND at its old value Z instead of setting P. -/
theorem AND_reg_computes_sum :
    (loopBody (mkState [0, 0b1100, 0b1010] 0x5042 Flag__ZRO)).map
        (fun s' => (reg s' Reg__R0, reg s' Reg__Cond)) = some (22, Flag__ZRO) ∧
      (0b1100 &&& 0b1010 : Nat) = 0b1000 := by
  decide

/-- C5 (code at a failing input): with R0 = 0x20 the word 0x5020 (AND R0,R0,#0)
leaves R0 = 0x20 and COND at its old value P: the operand is taken from bits 8-0
of the word (here 0x20, bit 5 being the immediate flag), not from bits 4-0. -/
theorem AND_imm_uses_nine_bits :
    (loopBody (mkState [0x20] 0x5020 Flag__POS)).map
        (fun s' => (reg s' Reg__R0, reg s' Reg__Cond)) = some (0x20, Flag__POS) ∧
      SignExtend (toUint16 (Int.land 0x5020 0x1FF)) 5 = some 0x20 ∧
      SignExtend (toUint16 (Int.land 0x5020 0x1F)) 5 = some 0 := by
  decide

/-- C6 (code at the input of the claim): with R1 = 0xFFFF and R2 = 1 the word 0x1042
(ADD R0,R1,R2) leaves R0 = 0x10000, which is not a 16-bit value, and COND = P;
the 16-bit wraparound sum is 0. -/
theorem ADD_reg_no_wraparound :
    (loopBody (mkState [0, 0xFFFF, 1] 0x1042 Flag__ZRO)).map
        (fun s' => (reg s' Reg__R0, reg s' Reg__Cond)) = some (0x10000, Flag__POS) ∧
      ((0xFFFF + 1) % 65536 : Int) = 0 := by
  decide

/-- C7: the state in which the loop starts has COND = Z, and after any number n of
loop iterations from it the program has not panicked and COND is exactly one of
N, Z, P (so never 0 and never a sum of two flags). -/
theorem COND_one_of_three (n : Nat) :
    reg initState Reg__Cond = Flag__ZRO ∧
    ∃ s, runLoop n initState = some s ∧
      ((reg s Reg__Cond = Flag__NEG ∧ reg s Reg__Cond ≠ Flag__ZRO ∧ reg s Reg__Cond ≠ Flag__POS) ∨
       (reg s Reg__Cond = Flag__ZRO ∧ reg s Reg__Cond ≠ Flag__NEG ∧ reg s Reg__Cond ≠ Flag__POS) ∨
       (reg s Reg__Cond = Flag__POS ∧ reg s Reg__Cond ≠ Flag__NEG ∧ reg s Reg__Cond ≠ Flag__ZRO)) ∧
      reg s Reg__Cond ≠ 0 := by
  refine ⟨by decide, ?_⟩
  obtain ⟨s, hs, hc⟩ := runLoop_cond n initState (Or.inr (Or.inl (by decide)))
  refine ⟨s, hs, ?_, ?_⟩
  · rcases hc with hc | hc | hc
    · exact Or.inl ⟨hc, by rw [hc]; decide, by rw [hc]; decide⟩
    · exact Or.inr (Or.inl ⟨hc, by rw [hc]; decide, by rw [hc]; decide⟩)
    · exact Or.inr (Or.inr ⟨hc, by rw [hc]; decide, by rw [hc]; decide⟩)
  · rcases hc with hc | hc | hc <;> rw [hc] <;> decide

/-- C8 (code at a failing input): with zero-filled memory, so that the cell at
address PC = 0x1063 holds the word 0x0000, and R1 = 5, the iteration executes
ADD R0,R1,#3, the instruction that the number 0x1063 in PC itself encodes: R0
becomes 8, COND becomes P, and PC is 0x1064 afterwards. -/
theorem loop_decodes_PC_register :
    (mkState [0, 5] 0x1063 Flag__ZRO).MEM ⟨0x1063, by decide⟩ = 0 ∧
      (loopBody (mkState [0, 5] 0x1063 Flag__ZRO)).map
        (fun s' => (reg s' Reg__R0, reg s' Reg__Cond, reg s' Reg__PC))
        = some (8, Flag__POS, 0x1064) := by
  decide

/-- C9 (code at a failing input): with memory holding 0x1234 at address 0x4000 and
0x4000 in every other cell, the word 0xA000 (LDI R0, offset 0) leaves R0 = 2 and
COND = P, although no memory cell holds 2. -/
theorem LDI_ignores_memory :
    (loopBody (withMEM (mkState [] 0xA000 Flag__ZRO)
        (fun a => if a.val = 0x4000 then 0x1234 else 0x4000))).map
        (fun s' => (reg s' Reg__R0, reg s' Reg__Cond)) = some (2, Flag__POS) ∧
      ∀ a : Fin LayoutSize,
        (withMEM (mkState [] 0xA000 Flag__ZRO)
          (fun a => if a.val = 0x4000 then 0x1234 else 0x4000)).MEM a ≠ 2 := by
  refine ⟨by decide, fun a => ?_⟩
  show (if a.val = 0x4000 then 0x1234 else 0x4000) ≠ 2
  split_ifs <;> decide

/-- C10 (code at a failing input): from a state whose command word is 0xF025 (TRAP
HALT) the iteration leaves `running` at 1, and the loop goes on: two iterations
are executed and PC is 0xF027 after them. -/
theorem TRAP_HALT_keeps_running :
    (loopBody (mkState [] 0xF025 Flag__ZRO)).map (fun s' => s'.running) = some 1 ∧
      (runLoop 2 (mkState [] 0xF025 Flag__ZRO)).map
        (fun s' => (s'.running, reg s' Reg__PC)) = some (1, 0xF027) := by
  decide

/-! ## Helper lemmas for the empty cases and the program counter -/

theorem wrapInt_of_lt (x : Int) (h0 : -2 ^ 63 ≤ x) (h1 : x < 2 ^ 63) : wrapInt x = x := by
  unfold wrapInt
  norm_num at h0 h1 ⊢
  omega

/-- An iteration whose command word is none of ADD, AND, LDI changes nothing but
the program counter. -/
theorem loopBody_other_frame (s : State)
    (h1 : reg s Reg__PC / 4096 ≠ 1) (h5 : reg s Reg__PC / 4096 ≠ 5)
    (h10 : reg s Reg__PC / 4096 ≠ 10) :
    ∃ s', loopBody s = some s' ∧ s'.running = s.running ∧ s'.MEM = s.MEM ∧
      (∀ i, 0 ≤ i → i ≤ 7 → reg s' i = reg s i) ∧
      reg s' Reg__Cond = reg s Reg__Cond ∧
      reg s' Reg__PC = wrapInt (reg s Reg__PC + 1) := by
  refine ⟨_, loopBody_other s h1 h5 h10, rfl, rfl, ?_, ?_, ?_⟩
  · intro i h0 h7
    exact reg_put_other _ _ _ _ (by decide) h0 (by omega) (by unfold Reg__PC; omega)
  · exact reg_put_other _ _ _ _ (by decide) (by decide) (by decide) (by decide)
  · exact reg_put_same _ _ _ (by decide) (by decide)

/-- C11 (code at a failing input): a JSR command word at PC = 0x4800 with R7 = 0
leaves R7 = 0, not 0x4801, and the JMP R7 command word 0xC1C0 with R7 = 0x4801
leaves PC = 0xC1C1, not 0x4801. -/
theorem JSR_saves_nothing_JMP_jumps_nowhere :
    (loopBody (mkState [] 0x4800 Flag__ZRO)).map (fun s' => reg s' Reg__R7) = some 0 ∧
      (loopBody (mkState [0, 0, 0, 0, 0, 0, 0, 0x4801] 0xC1C0 Flag__ZRO)).map
        (fun s' => (reg s' Reg__R7, reg s' Reg__PC)) = some (0x4801, 0xC1C1) := by
  decide

/-- C12: from a state with COND = Z, a loop iteration whose command word has opcode
BR (bits 15-12 = 0000) and condition mask 0b101 (bits 11-9, N and P only) returns
normally with PC equal to the old PC plus exactly 1 and with R0..R7 and COND
unchanged. -/
theorem BR_np_on_zero_no_jump (s : State) (hop : reg s Reg__PC / 4096 = OpCode__BR)
    (hmask : reg s Reg__PC / 512 % 8 = 0b101) (hz : reg s Reg__Cond = Flag__ZRO) :
    ∃ s', loopBody s = some s' ∧ reg s' Reg__PC = reg s Reg__PC + 1 ∧
      (∀ i, 0 ≤ i → i ≤ 7 → reg s' i = reg s i) ∧
      reg s' Reg__Cond = Flag__ZRO := by
  unfold OpCode__BR at hop
  have _hm := hmask
  obtain ⟨s', h, _, _, hreg, hc, hpc⟩ := loopBody_other_frame s (by omega) (by omega) (by omega)
  refine ⟨s', h, ?_, hreg, hc.trans hz⟩
  rw [hpc]
  exact wrapInt_of_lt _ (by omega) (by omega)

/-- Witness for C12 at the BR word 0x0A05 (mask 0b101, offset 5) with COND = Z. -/
theorem BR_np_on_zero_no_jump_witness :
    reg (mkState [3] 0x0A05 Flag__ZRO) Reg__PC / 4096 = OpCode__BR ∧
      reg (mkState [3] 0x0A05 Flag__ZRO) Reg__PC / 512 % 8 = 0b101 ∧
      reg (mkState [3] 0x0A05 Flag__ZRO) Reg__Cond = Flag__ZRO ∧
      ∃ s', loopBody (mkState [3] 0x0A05 Flag__ZRO) = some s' ∧ reg s' Reg__PC = 0x0A06 ∧
        reg s' Reg__R0 = 3 := by
  obtain ⟨s', h, hpc, hreg, _⟩ :=
    BR_np_on_zero_no_jump (mkState [3] 0x0A05 Flag__ZRO) (by decide) (by decide) (by decide)
  exact ⟨by decide, by decide, by decide, s', h, hpc.trans (by decide),
    (hreg Reg__R0 (by decide) (by decide)).trans (by decide)⟩

/-- C13: a loop iteration whose command word has a reserved opcode, RTI (bits 15-12
= 1000) or RES (bits 15-12 = 1101), returns normally with one determined result
state, in which R0..R7 and COND have the values they had before. -/
theorem reserved_opcode_keeps_registers (s : State)
    (hop : reg s Reg__PC / 4096 = OpCode__RTI ∨ reg s Reg__PC / 4096 = OpCode__RES) :
    ∃ s', loopBody s = some s' ∧ (∀ s'', loopBody s = some s'' → s'' = s') ∧
      (∀ i, 0 ≤ i → i ≤ 7 → reg s' i = reg s i) ∧
      reg s' Reg__Cond = reg s Reg__Cond := by
  unfold OpCode__RTI OpCode__RES at hop
  obtain ⟨s', h, _, _, hreg, hc, _⟩ := loopBody_other_frame s (by omega) (by omega) (by omega)
  refine ⟨s', h, ?_, hreg, hc⟩
  intro s'' h2
  rw [h] at h2
  exact (Option.some.inj h2).symm

/-- Witness for C13 at the RTI word 0x8000 and at the RES word 0xD000. -/
theorem reserved_opcode_keeps_registers_witness :
    (∃ s', loopBody (mkState [1, 2, 3] 0x8000 Flag__NEG) = some s' ∧ reg s' Reg__R2 = 3 ∧
      reg s' Reg__Cond = Flag__NEG) ∧
    (∃ s', loopBody (mkState [1, 2, 3] 0xD000 Flag__NEG) = some s' ∧ reg s' Reg__R2 = 3 ∧
      reg s' Reg__Cond = Flag__NEG) := by
  obtain ⟨s1, h1, _, hreg1, hc1⟩ :=
    reserved_opcode_keeps_registers (mkState [1, 2, 3] 0x8000 Flag__NEG) (Or.inl (by decide))
  obtain ⟨s2, h2, _, hreg2, hc2⟩ :=
    reserved_opcode_keeps_registers (mkState [1, 2, 3] 0xD000 Flag__NEG) (Or.inr (by decide))
  exact ⟨⟨s1, h1, (hreg1 Reg__R2 (by decide) (by decide)).trans (by decide),
      hc1.trans (by decide)⟩,
    ⟨s2, h2, (hreg2 Reg__R2 (by decide) (by decide)).trans (by decide),
      hc2.trans (by decide)⟩⟩

/-! ## Helper lemmas for `main` and for the program counter -/

theorem enterLoop_eq : enterLoop = some initState := by
  unfold enterLoop
  rw [regSet_put _ _ _ (by decide) (by decide)]
  simp only [Option.bind_eq_bind, Option.some_bind]
  rw [regSet_put _ _ _ (by decide) (by decide)]
  simp only [Option.some_bind]
  congr 1
  unfold initState put zeroState
  simp only [State.mk.injEq, and_true, true_and]
  funext j
  have e8 : Reg__PC.toNat = 8 := rfl
  have e9 : Reg__Cond.toNat = 9 := rfl
  simp only [e8, e9]
  by_cases h9 : j.val = 9
  · simp [h9]
  · by_cases h8 : j.val = 8
    · simp [h8]
    · simp [h8, h9]

/-- Whatever the command word, the iteration ends with `REG[Reg__PC] += 1` applied
to the old program counter. -/
theorem loopBody_pc (s : State) :
    ∃ s', loopBody s = some s' ∧ reg s' Reg__PC = wrapInt (reg s Reg__PC + 1) := by
  by_cases h1 : reg s Reg__PC / 4096 = 1
  · by_cases himm : reg s Reg__PC / 32 % 2 = 1
    · obtain ⟨imm5, hs⟩ := SignExtend_some (reg s Reg__PC % 32).toNat 5 (by decide)
      exact ⟨_, loopBody_ADD_imm s imm5 h1 himm hs, reg_put_same _ _ _ (by decide) (by decide)⟩
    · exact ⟨_, loopBody_ADD_reg s h1 himm, reg_put_same _ _ _ (by decide) (by decide)⟩
  · by_cases h5 : reg s Reg__PC / 4096 = 5
    · by_cases himm : reg s Reg__PC / 32 % 2 = 1
      · obtain ⟨imm5, hs⟩ := SignExtend_some (reg s Reg__PC % 512).toNat 5 (by decide)
        exact ⟨_, loopBody_AND_imm s imm5 h5 himm hs,
          reg_put_same _ _ _ (by decide) (by decide)⟩
      · exact ⟨_, loopBody_AND_reg s h5 himm, reg_put_same _ _ _ (by decide) (by decide)⟩
    · by_cases h10 : reg s Reg__PC / 4096 = 10
      · obtain ⟨offset, hs⟩ := SignExtend_some (reg s Reg__PC % 512).toNat 9 (by decide)
        exact ⟨_, loopBody_LDI s offset h10 hs, reg_put_same _ _ _ (by decide) (by decide)⟩
      · exact ⟨_, loopBody_other s h1 h5 h10, reg_put_same _ _ _ (by decide) (by decide)⟩

/-- C14 (code): the array type `Layout` has 1 << 15 = 32768 cells, fewer than
65536, and the 16-bit address 0x8000 is not an index of it. -/
theorem Layout_has_32768_cells :
    LayoutSize = 32768 ∧ LayoutSize < 65536 ∧ ¬ (0x8000 < LayoutSize) := by
  decide

/-- C15: the initialisation before the loop returns normally, and the state in
which the loop starts has PC = 0x3000 (the constant START), COND = Z, R0..R7 all
0 and a true loop condition (`running > 0`). -/
theorem loop_start_state :
    ∃ s, enterLoop = some s ∧ reg s Reg__PC = START ∧ START = 0x3000 ∧
      reg s Reg__Cond = Flag__ZRO ∧ (∀ i, 0 ≤ i → i ≤ 7 → reg s i = 0) ∧ s.running > 0 := by
  refine ⟨initState, enterLoop_eq, by decide, by decide, by decide, ?_, by decide⟩
  intro i h0 h7
  interval_cases i <;> decide

theorem main_no_image (args : List String) (h : args.length < 2) :
    main args = MainOutcome.exited 2 ["vm [image]...\n"] := by
  unfold main
  rw [if_pos h]

theorem main_with_image (a0 a1 : String) (rest : List String) :
    main (a0 :: a1 :: rest)
      = MainOutcome.exited 1 ["Failed to load image: " ++ a1 ++ "\n"] := by
  unfold main imageLoop
  simp

/-- C16 (code at a failing input): for the argument list `vm halt.obj`, `main`
prints that the image failed to load and exits with code 1; nothing in `main`
opens or reads the image, and the VM loop, the only place a HALT could occur, is
not entered. -/
theorem main_exits_1_without_loading :
    main ["vm", "halt.obj"] = MainOutcome.exited 1 ["Failed to load image: halt.obj\n"] ∧
      exitCode (main ["vm", "halt.obj"]) = some 1 ∧
      ∀ s : State, main ["vm", "halt.obj"] ≠ MainOutcome.loopEntered s := by
  have h := main_with_image "vm" "halt.obj" []
  refine ⟨h, ?_, fun s => ?_⟩
  · rw [h]
    rfl
  · rw [h]
    exact fun e => MainOutcome.noConfusion e

/-- C17: for every command word, of any integer value, the three register indices
the loop extracts lie in 0..7, so they differ from the indices of PC and COND,
every read and write of `REG` at them is in bounds, and a loop iteration never
panics. -/
theorem register_indices_in_bounds (cmd : Int) :
    (0 ≤ Int.land (Int.shiftRight cmd 9) 0x7 ∧ Int.land (Int.shiftRight cmd 9) 0x7 ≤ 7) ∧
    (0 ≤ Int.land (Int.shiftRight cmd 6) 0x7 ∧ Int.land (Int.shiftRight cmd 6) 0x7 ≤ 7) ∧
    (0 ≤ Int.land cmd 0x7 ∧ Int.land cmd 0x7 ≤ 7) ∧
    Int.land (Int.shiftRight cmd 9) 0x7 ≠ Reg__PC ∧
    Int.land (Int.shiftRight cmd 9) 0x7 ≠ Reg__Cond ∧
    (∀ s : State, ∃ a b c, regGet s.REG (Int.land (Int.shiftRight cmd 9) 0x7) = some a ∧
      regGet s.REG (Int.land (Int.shiftRight cmd 6) 0x7) = some b ∧
      regGet s.REG (Int.land cmd 0x7) = some c) ∧
    (∀ (s : State) (v : Int), ∃ s', regSet s (Int.land (Int.shiftRight cmd 9) 0x7) v = some s') ∧
    (∀ s : State, reg s Reg__PC = cmd → ∃ s', loopBody s = some s') := by
  rw [land_7, land_7, land_7]
  unfold Reg__PC Reg__Cond
  refine ⟨by omega, by omega, by omega, by omega, by omega, fun s => ?_, fun s v => ?_,
    fun s _ => ?_⟩
  · exact ⟨_, _, _, regGet_reg s _ (by omega) (by omega), regGet_reg s _ (by omega) (by omega),
      regGet_reg s _ (by omega) (by omega)⟩
  · exact ⟨_, regSet_put s _ v (by omega) (by omega)⟩
  · obtain ⟨s', h, _⟩ := loopBody_pc s
    exact ⟨s', h⟩

/-- C18 (counterexample): from PC = 2^63 - 1, the largest value of a 64-bit `int`,
an iteration leaves PC = -2^63, not the old PC plus 1. -/
theorem PC_wraps_at_max_int :
    (loopBody (mkState [] (2 ^ 63 - 1) Flag__ZRO)).map (fun s' => reg s' Reg__PC)
      = some (-2 ^ 63) := by
  decide

/-- C18 (amended): for every state whose PC holds an `int` value below the largest
one, and so for every command word, one loop iteration returns normally and leaves
PC equal to the old PC plus exactly 1. -/
theorem PC_advances_by_one (s : State) (h0 : -2 ^ 63 ≤ reg s Reg__PC)
    (h1 : reg s Reg__PC < 2 ^ 63 - 1) :
    ∃ s', loopBody s = some s' ∧ reg s' Reg__PC = reg s Reg__PC + 1 := by
  obtain ⟨s', h, hpc⟩ := loopBody_pc s
  refine ⟨s', h, ?_⟩
  rw [hpc]
  exact wrapInt_of_lt _ (by omega) (by omega)

/-- Witness for C18 (amended): an ADD word, a TRAP word and a word beyond 16 bits. -/
theorem PC_advances_by_one_witness :
    (∃ s', loopBody (mkState [] 0x1063 Flag__ZRO) = some s' ∧ reg s' Reg__PC = 0x1064) ∧
    (∃ s', loopBody (mkState [] 0xF025 Flag__ZRO) = some s' ∧ reg s' Reg__PC = 0xF026) ∧
    (∃ s', loopBody (mkState [] 0x123456 Flag__ZRO) = some s' ∧ reg s' Reg__PC = 0x123457) := by
  obtain ⟨s1, h1, p1⟩ := PC_advances_by_one (mkState [] 0x1063 Flag__ZRO) (by decide) (by decide)
  obtain ⟨s2, h2, p2⟩ := PC_advances_by_one (mkState [] 0xF025 Flag__ZRO) (by decide) (by decide)
  obtain ⟨s3, h3, p3⟩ :=
    PC_advances_by_one (mkState [] 0x123456 Flag__ZRO) (by decide) (by decide)
  exact ⟨⟨s1, h1, p1.trans (by decide)⟩, ⟨s2, h2, p2.trans (by decide)⟩,
    ⟨s3, h3, p3.trans (by decide)⟩⟩

/-- C20: for every argument list with at least one image argument (program name
`a0`, first image `a1`, any further arguments `rest`), `main` prints the load
failure of `a1` and exits with code 1, the same for every `rest`; the VM loop is
not entered, and it is entered for no argument list at all. -/
theorem main_exits_before_loop (a0 a1 : String) (rest : List String) :
    main (a0 :: a1 :: rest)
        = MainOutcome.exited 1 ["Failed to load image: " ++ a1 ++ "\n"] ∧
      main (a0 :: a1 :: rest) = main [a0, a1] ∧
      exitCode (main (a0 :: a1 :: rest)) = some 1 ∧
      ∀ (args : List String) (s : State), main args ≠ MainOutcome.loopEntered s := by
  refine ⟨main_with_image a0 a1 rest, ?_, ?_, ?_⟩
  · rw [main_with_image, main_with_image]
  · rw [main_with_image]
    rfl
  · intro args s
    by_cases h : args.length < 2
    · rw [main_no_image args h]
      exact fun e => MainOutcome.noConfusion e
    · match args, h with
      | [], h => exact absurd (by simp) h
      | [_], h => exact absurd (by simp) h
      | b0 :: b1 :: more, _ =>
        rw [main_with_image]
        exact fun e => MainOutcome.noConfusion e

/-! ## Helper lemmas for sign extension at any width -/

theorem signExtend_mask_eq (w : Nat) (hw : w ≤ 16) :
    (0xFFFF <<< w) % 65536 = 2 ^ w * (2 ^ (16 - w) - 1) := by
  interval_cases w <;> decide

theorem signExtend_or_eq_add (w v : Nat) (hw : w ≤ 16) (hv : v < 2 ^ w) :
    v ||| (0xFFFF <<< w) % 65536 = v + (65536 - 2 ^ w) := by
  rw [signExtend_mask_eq w hw, Nat.or_comm, ← Nat.mul_add_lt_is_or hv]
  interval_cases w <;> norm_num <;> omega

theorem testBit_top_iff (w v : Nat) (hw1 : 1 ≤ w) (hw : w ≤ 16) (hv : v < 2 ^ w) :
    v.testBit (w - 1) = true ↔ ¬ v < 2 ^ (w - 1) := by
  rw [Nat.testBit_to_div_mod]
  simp only [decide_eq_true_eq]
  interval_cases w <;> norm_num at hv ⊢ <;> omega

theorem SignExtend_width16 (r : Nat) : SignExtend r 16 = some r := by
  unfold SignExtend
  have e : (0xFFFF <<< (16 : Int).toNat) % 65536 = 0 := by decide
  rw [if_neg (by decide), e, Nat.or_zero]
  split_ifs <;> rfl

/-- C19: for every width w with 1 ≤ w ≤ 16 and every v < 2^w, `SignExtend v w`
returns a 16-bit word r that is v when v < 2^(w-1) and (v - 2^w) mod 2^16
otherwise, so that r read as a 16-bit twos-complement number equals v read as a
w-bit one; and extending r again at width 16 returns r. -/
theorem SignExtend_twos_complement (w v : Nat) (hw1 : 1 ≤ w) (hw16 : w ≤ 16)
    (hv : v < 2 ^ w) :
    ∃ r, SignExtend v w = some r ∧ r < 65536 ∧
      (r : Int) = (if v < 2 ^ (w - 1) then (v : Int) else ((v : Int) - 2 ^ w) % 65536) ∧
      signedVal 16 r = signedVal w v ∧
      SignExtend r 16 = some r := by
  have hw0 : ¬ ((w : Int) - 1 < 0) := by omega
  have hk : ((w : Int) - 1).toNat = w - 1 := by omega
  have hp : 2 ^ (w - 1) * 2 = 2 ^ w := by
    rw [← pow_succ]
    congr 1
    omega
  have hp16 : 2 ^ w ≤ 65536 := by
    calc 2 ^ w ≤ 2 ^ 16 := Nat.pow_le_pow_right (by norm_num) hw16
      _ = 65536 := by norm_num
  by_cases hlt : v < 2 ^ (w - 1)
  · have hc : ¬ ((v >>> (w - 1)) &&& 1 ≠ 0) := by
      rw [and_one_ne_zero_iff, testBit_top_iff w v hw1 hw16 hv]
      exact fun h => h hlt
    refine ⟨v, ?_, by omega, by rw [if_pos hlt], ?_, SignExtend_width16 v⟩
    · simp only [SignExtend, hw0, hk, if_false]
      rw [if_neg hc]
    · unfold signedVal
      rw [if_pos hlt, if_pos (by norm_num; omega)]
  · have hc : (v >>> (w - 1)) &&& 1 ≠ 0 := by
      rw [and_one_ne_zero_iff, testBit_top_iff w v hw1 hw16 hv]
      exact hlt
    have hr := signExtend_or_eq_add w v hw16 hv
    refine ⟨v + (65536 - 2 ^ w), ?_, by omega, ?_, ?_, SignExtend_width16 _⟩
    · simp only [SignExtend, hw0, hk, Int.toNat_ofNat, if_false]
      rw [if_pos hc, hr]
    · rw [if_neg hlt]
      have e : ((v + (65536 - 2 ^ w) : Nat) : Int) = (v : Int) - 2 ^ w + 65536 := by
        rw [Nat.cast_add, Nat.cast_sub hp16]
        push_cast
        ring
      rw [e]
      have hvi : (v : Int) < 2 ^ w := by exact_mod_cast hv
      have hpi : (2 : Int) ^ w ≤ 65536 := by exact_mod_cast hp16
      have hv0 : (0 : Int) ≤ v := Int.ofNat_nonneg v
      generalize (2 : Int) ^ w = X at hvi hpi ⊢
      omega
    · unfold signedVal
      rw [if_neg hlt, if_neg (by norm_num; omega)]
      rw [Nat.cast_add, Nat.cast_sub hp16]
      push_cast
      ring

/-- Witness for C19 at w = 9: 0x1FF extends to 0xFFFF (value -1), 0x0FF stays. -/
theorem SignExtend_twos_complement_witness :
    (1 ≤ 9 ∧ 9 ≤ 16 ∧ 0x1FF < 2 ^ 9) ∧
      ∃ r, SignExtend 0x1FF 9 = some r ∧ r = 0xFFFF ∧ signedVal 16 r = -1 := by
  obtain ⟨r, h, _, hr, hs, _⟩ :=
    SignExtend_twos_complement 9 0x1FF (by decide) (by decide) (by decide)
  refine ⟨by decide, r, h, ?_, hs.trans (by decide)⟩
  have e : SignExtend 0x1FF ((9 : Nat) : Int) = some 0xFFFF := by decide
  rw [e] at h
  exact (Option.some.inj h).symm

end VM
